import Mathlib

/-!
Shallow embedding of the prism-samplernn repository (dataset.py and
generate.py) and verification of the frozen claims about it.

Conventions of the embedding:
* Python floats are modelled as rationals (ℚ); all arithmetic in the relevant
  code paths is exact at the inputs considered.
* Python `int(x)` (truncation toward zero) is `pyTrunc`; Python `round`
  (banker's rounding, half to even) is `pyRound`.
* Numpy / TensorFlow tensors are nested lists; a batch of sequences is a
  `List (List _)` indexed batch-major.
* Lazy generators become finite lists; a generator raising `StopIteration`
  corresponds to reaching the end of the list.
* The neural model, quantize/dequantize and audio decoding live in the
  external `samplernn` package (not part of this repository's sources), so
  they are abstract parameters: the model is a frame-step function
  `step : batch frame → temperature vector → batch frame`, quantize and
  dequantize are elementwise maps `qz : ℚ → ℤ` and `dq : ℤ → ℚ`.
-/

namespace PrismSampleRNN

/-- Python `int()` applied to a float: truncation toward zero. -/
def pyTrunc (q : ℚ) : ℤ :=
  if 0 ≤ q then q.floor else -((-q).floor)

/-- Python `round()` applied to a float: nearest integer, ties to even. -/
def pyRound (q : ℚ) : ℤ :=
  let f := q.floor
  let r := q - (f : ℚ)
  if r < 1/2 then f
  else if 1/2 < r then f + 1
  else if f % 2 = 0 then f else f + 1

/-! ### dataset.py -/

/-- Error raised by `get_dataset_filenames_split` when no audio file is
found (`ValueError("No audio files found ...")` in the source). -/
inductive DatasetError where
  | emptyDataset
deriving DecidableEq

/-- dataset.py, `get_dataset_filenames_split(data_dir, val_pcnt)`: the
argument `files` is the file list after `find_files` and `random.shuffle`
(file discovery and shuffling are external I/O / randomness, so the theorems
quantify over the shuffled list).  `val_start = int((1 - val_pcnt) *
len(files))`, returning `(files[:val_start], files[val_start:])`. -/
def get_dataset_filenames_split (files : List String) (val_pcnt : ℚ) :
    Except DatasetError (List String × List String) :=
  if files.isEmpty then .error .emptyDataset
  else
    let val_start := (pyTrunc ((1 - val_pcnt) * (files.length : ℚ))).toNat
    .ok (files.take val_start, files.drop val_start)

/-- dataset.py, `pad_batch`, restricted to one sequence of the batch (all
batch members share the usable length `num_samps`, computed from
`batch[0]`): keep the largest multiple of `seq_len` samples and prepend
`overlap` zeros. -/
def pad_batch_seq (xs : List ℚ) (seq_len overlap : ℕ) : List ℚ :=
  List.replicate overlap 0 ++ xs.take (xs.length / seq_len * seq_len)

/-- dataset.py, `get_subseq`, restricted to one sequence `p` of a batch:
for `i in range(overlap, len(p), seq_len)` produce
`x = quantize(p[i-overlap : i+seq_len])` and `y = x[overlap : overlap+seq_len]`.
Writing `i = overlap + k*seq_len`, the slice is
`p[k*seq_len : k*seq_len + seq_len + overlap]` and the number of windows is
`ceil((len(p) - overlap) / seq_len)`. -/
def get_subseq_seq (qz : ℚ → ℤ) (p : List ℚ) (seq_len overlap : ℕ) :
    List (List ℤ × List ℤ) :=
  (List.range ((p.length - overlap + seq_len - 1) / seq_len)).map fun k =>
    let x := ((p.drop (k * seq_len)).take (seq_len + overlap)).map qz
    (x, (x.drop overlap).take seq_len)

/-! ### generate.py: temperature parsing -/

/-- A raw temperature spec after `ast.literal_eval`: either a number or a
pair `(x_fractions, y_values)`. -/
inductive RawTemp where
  | num (v : ℚ)
  | pair (xs : List ℚ) (ys : List ℚ)
deriving DecidableEq

/-- A parsed temperature spec: a constant, or a curve whose x-points have
been converted to absolute sample indices. -/
inductive PTemp where
  | const (v : ℚ)
  | curve (xs : List ℤ) (ys : List ℚ)
deriving DecidableEq

/-- generate.py, `parse_temperature_vector(tvect, total_samps)`:
`fn = lambda x: int(x * total_samps)`, `map`, then `list.sort()`
(ascending). -/
def parse_temperature_vector (tvect : List ℚ) (total_samps : ℕ) : List ℤ :=
  ((tvect.map fun x => pyTrunc (x * (total_samps : ℚ))).mergeSort (· ≤ ·))

/-- One element of the comprehension in `parse_temperature`: a number stays
as is, a pair becomes `[parse_temperature_vector(t[0], total_samps), t[1]]`. -/
def literal_to_ptemp (total_samps : ℕ) : RawTemp → PTemp
  | .num v => .const v
  | .pair xs ys => .curve (parse_temperature_vector xs total_samps) ys

/-- The `while len(temperature) < num_seqs: temperature = temperature +
[last_val]` loop of `parse_temperature`. -/
def pad_with_last (last_val : PTemp) (num_seqs : ℕ) (l : List PTemp) : List PTemp :=
  if l.length < num_seqs then pad_with_last last_val num_seqs (l ++ [last_val]) else l
termination_by num_seqs - l.length
decreasing_by simp [List.length_append]; omega

/-- generate.py, `parse_temperature(temperature, num_seqs, total_samps)`.
The resize branch runs only under `if num_seqs > 1`.  When the input list is
empty and `num_seqs > 1`, Python raises `IndexError` at `temperature[-1]`
(unreachable from the CLI, whose `--temperature` takes at least one value);
the embedding uses a default there and the theorems assume a nonempty list. -/
def parse_temperature (temperature : List RawTemp) (num_seqs total_samps : ℕ) :
    List PTemp :=
  let parsed := temperature.map (literal_to_ptemp total_samps)
  if 1 < num_seqs then
    if parsed.length < num_seqs then
      pad_with_last (parsed.getLastD (.const 0)) num_seqs parsed
    else if num_seqs < parsed.length then parsed.take num_seqs
    else parsed
  else parsed

/-! ### generate.py: temperature interpolation -/

/-- Python `zip` over four lists (truncates to the shortest). -/
def zip4 {α β γ δ : Type} : List α → List β → List γ → List δ → List (α × β × γ × δ)
  | a :: as, b :: bs, c :: cs, d :: ds => (a, b, c, d) :: zip4 as bs cs ds
  | _, _, _, _ => []

/-- The inner `for _ in range(xi, xi + round(xn))` loop of `interpolgen`:
`n` iterations accumulating `cx += dx; cy += dy` and yielding `(cx, cy)`. -/
def interp_seg (dx dy : ℚ) : ℕ → ℚ → ℚ → List (ℚ × ℚ)
  | 0, _, _ => []
  | n + 1, cx, cy => (cx + dx, cy + dy) :: interp_seg dx dy n (cx + dx) (cy + dy)

/-- generate.py, `interpolgen(nsamps, xpoints, ypoints)` as the finite list
of all values the generator yields.  `range(xi, xi + round(xn))` has
`max(round(xn), 0)` iterations, hence `(pyRound xn).toNat`. -/
def interpolgen (nsamps : ℕ) (xpoints : List ℤ) (ypoints : List ℚ) : List (ℚ × ℚ) :=
  let dx : ℚ := ((xpoints.getLastD 0 : ℤ) : ℚ) / (nsamps : ℚ)
  ((zip4 xpoints xpoints.tail ypoints ypoints.tail).map fun s =>
    match s with
    | (xi, xj, yi, yj) =>
      let xdiff : ℚ := ((xj : ℚ) - (xi : ℚ))
      let ydiff : ℚ := yj - yi
      let xn : ℚ := xdiff / dx
      let dy : ℚ := ydiff / xn
      interp_seg dx dy (pyRound xn).toNat ((xi : ℚ) - dx) (yi - dy)).flatten

/-- The generators list built at the top of `get_temperature`: numbers stay
scalars, curve specs become their `interpolgen` streams. -/
def curve_streams (parsed : List PTemp) (nsamps : ℕ) : List (Sum ℚ (List (ℚ × ℚ))) :=
  parsed.map fun t =>
    match t with
    | .const v => .inl v
    | .curve xs ys => .inr (interpolgen nsamps xs ys)

/-- One iteration of the comprehension inside `get_temperature`: the vector
of per-sequence temperatures at step `j`, built left to right (`next(t)[1]`
is the y component of the j-th yielded pair), or `none` as soon as any curve
generator is exhausted (`StopIteration`).  The inner singleton wrapping
`[t]` of the source is dropped: a vector entry here is the scalar itself. -/
def temps_at : List (Sum ℚ (List (ℚ × ℚ))) → ℕ → Option (List ℚ)
  | [], _ => some []
  | .inl v :: gs, j => (temps_at gs j).map fun rest => v :: rest
  | .inr l :: gs, j =>
    match l[j]? with
    | some p => (temps_at gs j).map fun rest => p.2 :: rest
    | none => none

/-- The `for _ in range(0, nsamps)` loop of `get_temperature` with explicit
fuel and current generator position `j`; `StopIteration` breaks the loop. -/
def get_temperature_from (gens : List (Sum ℚ (List (ℚ × ℚ)))) :
    ℕ → ℕ → List (List ℚ)
  | 0, _ => []
  | fuel + 1, j =>
    match temps_at gens j with
    | some v => v :: get_temperature_from gens fuel (j + 1)
    | none => []

/-- generate.py, `get_temperature(parsed_temp, nsamps)` as the finite list
of all temperature vectors the generator yields. -/
def get_temperature (parsed : List PTemp) (nsamps : ℕ) : List (List ℚ) :=
  get_temperature_from (curve_streams parsed nsamps) nsamps 0

/-! ### generate.py: the generation driver -/

/-- Error raised by `load_seed_audio` via its `assert` when the seed audio
is too short. -/
inductive GenError where
  | seedTooShort
deriving DecidableEq

/-- generate.py, `load_seed_audio(path, offset, length)` with the decoded
audio passed in place of the path (librosa decoding is external I/O):
asserts `offset + length <= len(audio)` and returns
`audio[offset : offset + length]`. -/
def load_seed_audio (audio : List ℚ) (offset length : ℕ) :
    Except GenError (List ℚ) :=
  if offset + length ≤ audio.length then .ok ((audio.drop offset).take length)
  else .error .seedTooShort

/-- The initial sample frame of `generate`: `np.full((batch_size,
big_frame_size, 1), q_zero)`, and when a seed chunk is present the
assignment `init_samples[:, :big_frame_size, :] = quantize(seed_audio, ...)`
broadcasts the quantized chunk over every sequence of the batch. -/
def init_batch (num_seqs big_frame_size : ℕ) (q_zero : ℤ) (qz : ℚ → ℤ) :
    Option (List ℚ) → List (List ℤ)
  | none => List.replicate num_seqs (List.replicate big_frame_size q_zero)
  | some chunk => List.replicate num_seqs (chunk.map qz)

/-- The value interpolated into `_t={...}` of an output file name: either a
number (scalar spec: the spec itself) or a whole list of y-values (curve
spec: `t[1]` from lines 178-180 of generate.py). -/
inductive TempTok where
  | num (v : ℚ)
  | list (vs : List ℚ)
deriving DecidableEq

/-- The comprehension at lines 178-180 of generate.py:
`t if isinstance(t, numbers.Number) else t[1]`. -/
def temp_for_name : PTemp → TempTok
  | .const v => .num v
  | .curve _ ys => .list ys

/-- What the spec's words require as the terminal temperature of a spec:
scalar specs use themselves, curve specs use their final control-point
y-value.  Modelled from the spec for comparison with `temp_for_name`. -/
def spec_terminal_temp : PTemp → ℚ
  | .const v => v
  | .curve _ ys => ys.getLastD 0

/-- generate.py line 176: `epoch = ckpt_path.split('/model.ckpt-')[-1]`. -/
def ckpt_epoch (ckpt_path : String) : String :=
  (ckpt_path.splitOn "/model.ckpt-").getLastD ""

/-- generate.py line 177: `path.split(".wav")[0]`. -/
def base_path (output_path : String) : String :=
  (output_path.splitOn ".wav").headD ""

/-- The components of one output file name
`f'{base}({i})_t={tok}.wav'` / `f'{base}_t={tok}.wav'`. -/
structure OutName where
  base : String
  seqIdx : Option ℕ
  temp : TempTok
deriving DecidableEq

/-- The observable outcome of one `generate` call: the dequantized audio
written for each sequence, and the name components of each output file. -/
structure GenResult where
  seqs : List (List ℚ)
  names : List OutName
deriving DecidableEq

/-- The `for i in range(0, num_frames)` loop of `generate`: each iteration
feeds the previous frame `samples[i]` and the next temperature vector to the
model and appends the returned frame; the loop breaks on `StopIteration`
from the temperature stream (hence exactly one model call per temperature
vector), so it returns one new frame per element of `tvecs`. -/
def run_steps (step : List (List ℤ) → List ℚ → List (List ℤ)) :
    List (List ℤ) → List (List ℚ) → List (List (List ℤ))
  | _, [] => []
  | prev, t :: ts => step prev t :: run_steps step (step prev t) ts

/-- generate.py, `generate(path, ckpt_path, config, num_seqs, dur,
sample_rate, temperature, seed, seed_offset)`.  `step` is the model's frame
advance (external), `qz`/`dq` the elementwise quantize/dequantize codec
(external), `big_frame_size`/`q_levels` the model attributes from the
config.  After the loop, line 173-174 concatenates the frames along time
and drops the first `big_frame_size` samples, and line 182 drops another
`big_frame_size` samples of every sequence before dequantizing. -/
def generate (step : List (List ℤ) → List ℚ → List (List ℤ))
    (qz : ℚ → ℤ) (dq : ℤ → ℚ) (big_frame_size q_levels : ℕ)
    (output_path ckpt_path : String) (num_seqs dur sample_rate : ℕ)
    (temperature : List RawTemp) (seed : Option (List ℚ)) (seed_offset : ℕ) :
    Except GenError GenResult := do
  let q_zero : ℤ := ((q_levels / 2 : ℕ) : ℤ)
  let num_samps := dur * sample_rate
  let seedChunk ← match seed with
    | none => pure none
    | some audio => Except.map some (load_seed_audio audio seed_offset big_frame_size)
  let init := init_batch num_seqs big_frame_size q_zero qz seedChunk
  let num_frames := num_samps / big_frame_size
  let parsed := parse_temperature temperature num_seqs (dur * sample_rate)
  let tvecs := get_temperature parsed num_frames
  let samples := init :: run_steps step init tvecs
  let base := base_path output_path ++ "_e=" ++ ckpt_epoch ckpt_path
  let seqs := (List.range num_seqs).map fun i =>
    ((((samples.map fun f => f.getD i []).flatten).drop big_frame_size).drop
      big_frame_size).map dq
  let names := (List.range num_seqs).map fun i =>
    { base := base
      seqIdx := if 1 < num_seqs then some i else none
      temp := temp_for_name (parsed.getD i (.const 0)) : OutName }
  pure { seqs := seqs, names := names }

/-! ### Helper lemmas -/

theorem rat_floor_eq (q : ℚ) : q.floor = ⌊q⌋ := by
  rw [Rat.floor_def' q, Rat.floor_def]

theorem pyTrunc_eq_floor {q : ℚ} (h : 0 ≤ q) : pyTrunc q = ⌊q⌋ := by
  rw [pyTrunc, if_pos h, rat_floor_eq]

theorem list_getD_map_range {α : Type} (f : ℕ → α) (d : α) {n i : ℕ} (h : i < n) :
    ((List.range n).map f).getD i d = f i := by
  simp [List.getD_eq_getElem?_getD, List.getElem?_map, List.getElem?_range h]

theorem list_getD_replicate {α : Type} (x d : α) {n i : ℕ} (h : i < n) :
    (List.replicate n x).getD i d = x := by
  simp [List.getD_eq_getElem?_getD, List.getElem?_replicate, h]

theorem flatten_length_const {α : Type} {b : ℕ} {L : List (List α)}
    (h : ∀ x ∈ L, x.length = b) : L.flatten.length = L.length * b := by
  induction L with
  | nil => simp
  | cons x L ih =>
    have hx : x.length = b := h x (by simp)
    have hL : L.flatten.length = L.length * b := ih fun y hy => h y (by simp [hy])
    simp only [List.flatten_cons, List.length_append, List.length_cons, hx, hL]
    ring

theorem run_steps_length (step : List (List ℤ) → List ℚ → List (List ℤ))
    (init : List (List ℤ)) (ts : List (List ℚ)) :
    (run_steps step init ts).length = ts.length := by
  induction ts generalizing init with
  | nil => rfl
  | cons t ts ih => simp [run_steps, ih]

theorem run_steps_shape (step : List (List ℤ) → List ℚ → List (List ℤ)) {n b : ℕ}
    (hstep : ∀ prev t, (step prev t).length = n ∧ ∀ row ∈ step prev t, row.length = b)
    (init : List (List ℤ)) (ts : List (List ℚ)) :
    ∀ f ∈ run_steps step init ts, f.length = n ∧ ∀ row ∈ f, row.length = b := by
  induction ts generalizing init with
  | nil => intro f hf; simp [run_steps] at hf
  | cons t ts ih =>
    intro f hf
    rw [run_steps] at hf
    rcases List.mem_cons.mp hf with h1 | h1
    · subst h1; exact hstep init t
    · exact ih (step init t) f h1

theorem row_length {f : List (List ℤ)} {n b i : ℕ} (hn : f.length = n)
    (hb : ∀ row ∈ f, row.length = b) (hi : i < n) : (f.getD i []).length = b := by
  have hlt : i < f.length := hn ▸ hi
  rw [List.getD_eq_getElem?_getD, List.getElem?_eq_getElem hlt]
  exact hb _ (List.getElem_mem hlt)

theorem gt_from_length_le (gens : List (Sum ℚ (List (ℚ × ℚ)))) (fuel j : ℕ) :
    (get_temperature_from gens fuel j).length ≤ fuel := by
  induction fuel generalizing j with
  | zero => simp [get_temperature_from]
  | succ fuel ih =>
    rw [get_temperature_from]
    cases h : temps_at gens j with
    | some v => simpa using ih (j + 1)
    | none => simp

theorem temps_at_all_inl {gens : List (Sum ℚ (List (ℚ × ℚ)))}
    (h : ∀ g ∈ gens, ∃ v, g = Sum.inl v) (j : ℕ) : (temps_at gens j).isSome := by
  induction gens with
  | nil => simp [temps_at]
  | cons g gs ih =>
    obtain ⟨v, rfl⟩ := h g (by simp)
    have hgs := ih fun g hg => h g (by simp [hg])
    obtain ⟨l, hl⟩ := Option.isSome_iff_exists.mp hgs
    simp [temps_at, hl]

theorem gt_from_length_of_some {gens : List (Sum ℚ (List (ℚ × ℚ)))}
    (hs : ∀ j, (temps_at gens j).isSome) (fuel j : ℕ) :
    (get_temperature_from gens fuel j).length = fuel := by
  induction fuel generalizing j with
  | zero => rfl
  | succ fuel ih =>
    rw [get_temperature_from]
    obtain ⟨v, hv⟩ := Option.isSome_iff_exists.mp (hs j)
    simp [hv, ih (j + 1)]

theorem pad_with_last_eq (last_val : PTemp) (num_seqs : ℕ) (l : List PTemp) :
    pad_with_last last_val num_seqs l =
      l ++ List.replicate (num_seqs - l.length) last_val := by
  rw [pad_with_last]
  by_cases h : l.length < num_seqs
  · rw [if_pos h, pad_with_last_eq last_val num_seqs (l ++ [last_val])]
    have h2 : num_seqs - l.length = (num_seqs - (l.length + 1)) + 1 := by omega
    simp [h2, List.replicate_succ]
  · rw [if_neg h]
    have h2 : num_seqs - l.length = 0 := by omega
    simp [h2]
termination_by num_seqs - l.length
decreasing_by simp [List.length_append]; omega

theorem generate_none_eq (step : List (List ℤ) → List ℚ → List (List ℤ))
    (qz : ℚ → ℤ) (dq : ℤ → ℚ) (bfs qlv : ℕ) (path ckpt : String)
    (num_seqs dur sr : ℕ) (temps : List RawTemp) (off : ℕ) :
    generate step qz dq bfs qlv path ckpt num_seqs dur sr temps none off =
      Except.ok
        { seqs := (List.range num_seqs).map fun i =>
            (((((init_batch num_seqs bfs ((qlv / 2 : ℕ) : ℤ) qz none ::
                  run_steps step (init_batch num_seqs bfs ((qlv / 2 : ℕ) : ℤ) qz none)
                    (get_temperature (parse_temperature temps num_seqs (dur * sr))
                      (dur * sr / bfs))).map fun f => f.getD i []).flatten).drop
                bfs).drop bfs).map dq
          names := (List.range num_seqs).map fun i =>
            { base := base_path path ++ "_e=" ++ ckpt_epoch ckpt
              seqIdx := if 1 < num_seqs then some i else none
              temp := temp_for_name
                ((parse_temperature temps num_seqs (dur * sr)).getD i (.const 0)) } } :=
  rfl

theorem generate_some_ok (step : List (List ℤ) → List ℚ → List (List ℤ))
    (qz : ℚ → ℤ) (dq : ℤ → ℚ) (bfs qlv : ℕ) (path ckpt : String)
    (num_seqs dur sr : ℕ) (temps : List RawTemp) (audio : List ℚ) (off : ℕ)
    (h : off + bfs ≤ audio.length) :
    generate step qz dq bfs qlv path ckpt num_seqs dur sr temps (some audio) off =
      Except.ok
        { seqs := (List.range num_seqs).map fun i =>
            (((((init_batch num_seqs bfs ((qlv / 2 : ℕ) : ℤ) qz
                    (some ((audio.drop off).take bfs)) ::
                  run_steps step
                    (init_batch num_seqs bfs ((qlv / 2 : ℕ) : ℤ) qz
                      (some ((audio.drop off).take bfs)))
                    (get_temperature (parse_temperature temps num_seqs (dur * sr))
                      (dur * sr / bfs))).map fun f => f.getD i []).flatten).drop
                bfs).drop bfs).map dq
          names := (List.range num_seqs).map fun i =>
            { base := base_path path ++ "_e=" ++ ckpt_epoch ckpt
              seqIdx := if 1 < num_seqs then some i else none
              temp := temp_for_name
                ((parse_temperature temps num_seqs (dur * sr)).getD i (.const 0)) } } := by
  have hl : load_seed_audio audio off bfs = Except.ok ((audio.drop off).take bfs) := by
    rw [load_seed_audio, if_pos h]
  simp only [generate, hl]
  rfl

theorem generate_some_err (step : List (List ℤ) → List ℚ → List (List ℤ))
    (qz : ℚ → ℤ) (dq : ℤ → ℚ) (bfs qlv : ℕ) (path ckpt : String)
    (num_seqs dur sr : ℕ) (temps : List RawTemp) (audio : List ℚ) (off : ℕ)
    (h : audio.length < off + bfs) :
    generate step qz dq bfs qlv path ckpt num_seqs dur sr temps (some audio) off =
      .error .seedTooShort := by
  have hl : load_seed_audio audio off bfs = .error .seedTooShort := by
    rw [load_seed_audio, if_neg (by omega)]
  simp only [generate, hl]
  rfl

/-! ### Claim C2 -/

/-- C2 counterexample: with `numSeqs = 1` and two scalar specs,
`parse_temperature` does not truncate to one entry (the resize branch runs
only when `num_seqs > 1`), contradicting the claim that for every
`numSeqs >= 1` the result has exactly `numSeqs` entries. -/
theorem parse_temperature_no_resize_single_seq :
    (parse_temperature [RawTemp.num 1, RawTemp.num 2] 1 100).length ≠ 1 := by
  decide

/-- C2 (amended): for `numSeqs > 1` and a nonempty spec list,
`parse_temperature` resizes to exactly `numSeqs` entries, replicating the
last entry to fill or truncating to the first `numSeqs`; for `numSeqs = 1`
the parsed list is returned unchanged. -/
theorem parse_temperature_resize_policy (temps : List RawTemp) (n total : ℕ)
    (hne : temps ≠ []) :
    (1 < n → (parse_temperature temps n total).length = n) ∧
    (¬ 1 < n →
      parse_temperature temps n total = temps.map (literal_to_ptemp total)) ∧
    (1 < n → n ≤ temps.length →
      parse_temperature temps n total = (temps.map (literal_to_ptemp total)).take n) ∧
    (1 < n → temps.length ≤ n →
      parse_temperature temps n total =
        temps.map (literal_to_ptemp total) ++
          List.replicate (n - temps.length)
            ((temps.map (literal_to_ptemp total)).getLastD (.const 0))) := by
  have hlen : (temps.map (literal_to_ptemp total)).length = temps.length :=
    List.length_map _ _
  refine ⟨?_, ?_, ?_, ?_⟩
  · intro h1
    rw [parse_temperature, if_pos h1]
    by_cases hlt : (temps.map (literal_to_ptemp total)).length < n
    · rw [if_pos hlt, pad_with_last_eq]
      simp only [List.length_append, List.length_replicate]
      omega
    · rw [if_neg hlt]
      by_cases hgt : n < (temps.map (literal_to_ptemp total)).length
      · rw [if_pos hgt]
        simp only [List.length_take]
        omega
      · rw [if_neg hgt]; omega
  · intro h1
    rw [parse_temperature, if_neg h1]
  · intro h1 h2
    rw [parse_temperature, if_pos h1]
    rw [if_neg (by omega)]
    by_cases hgt : n < (temps.map (literal_to_ptemp total)).length
    · rw [if_pos hgt]
    · rw [if_neg hgt]
      have : (temps.map (literal_to_ptemp total)).length = n := by omega
      rw [← this, List.take_length]
  · intro h1 h2
    rw [parse_temperature, if_pos h1]
    by_cases hlt : (temps.map (literal_to_ptemp total)).length < n
    · rw [if_pos hlt, pad_with_last_eq, hlen]
    · rw [if_neg hlt, if_neg (by omega)]
      have h3 : n - temps.length = 0 := by omega
      simp [h3]

/-- Witness for C2: three sequences from one spec replicate it; the
theorem's hypotheses hold at this concrete input. -/
theorem parse_temperature_resize_policy_witness :
    (parse_temperature [RawTemp.num 1] 3 10).length = 3 :=
  (parse_temperature_resize_policy [RawTemp.num 1] 3 10 (by decide)).1 (by decide)

/-! ### Claim C6 -/

/-- C6: for a nonempty (shuffled) file list and a validation fraction
`0 ≤ f ≤ 1`, the split succeeds, `train` is the first
`floor((1 - f) * N)` entries, `len(train) + len(val) = N`, and the two
parts are disjoint (file paths being distinct); for an empty list it fails
with the empty-dataset error at split time. -/
theorem split_filenames_partition (files : List String) (f : ℚ)
    (h0 : 0 ≤ f) (h1 : f ≤ 1) (hnd : files.Nodup) :
    (files = [] → get_dataset_filenames_split files f = .error .emptyDataset) ∧
    (files ≠ [] →
      get_dataset_filenames_split files f =
        .ok (files.take (⌊(1 - f) * (files.length : ℚ)⌋.toNat),
             files.drop (⌊(1 - f) * (files.length : ℚ)⌋.toNat)) ∧
      (files.take (⌊(1 - f) * (files.length : ℚ)⌋.toNat)).length +
        (files.drop (⌊(1 - f) * (files.length : ℚ)⌋.toNat)).length = files.length ∧
      (files.take (⌊(1 - f) * (files.length : ℚ)⌋.toNat)).Disjoint
        (files.drop (⌊(1 - f) * (files.length : ℚ)⌋.toNat))) := by
  have hfl : pyTrunc ((1 - f) * (files.length : ℚ)) = ⌊(1 - f) * (files.length : ℚ)⌋ :=
    pyTrunc_eq_floor (mul_nonneg (by linarith) (Nat.cast_nonneg _))
  constructor
  · intro h; subst h; rfl
  · intro h
    refine ⟨?_, ?_, ?_⟩
    · rw [get_dataset_filenames_split, if_neg (by simp [List.isEmpty_iff, h]), hfl]
    · simp only [List.length_take, List.length_drop]
      omega
    · have h2 : (files.take (⌊(1 - f) * (files.length : ℚ)⌋.toNat) ++
          files.drop (⌊(1 - f) * (files.length : ℚ)⌋.toNat)).Nodup := by
        rw [List.take_append_drop]; exact hnd
      exact (List.nodup_append.mp h2).2.2

/-- Witness for C6: the split of three files at fraction 1/4, with the
theorem's hypotheses discharged at this concrete input. -/
theorem split_filenames_partition_witness :
    get_dataset_filenames_split ["a", "b", "c"] (1/4) =
      .ok ((["a", "b", "c"] : List String).take
             (⌊(1 - 1/4 : ℚ) * (((["a", "b", "c"] : List String)).length : ℚ)⌋.toNat),
           (["a", "b", "c"] : List String).drop
             (⌊(1 - 1/4 : ℚ) * (((["a", "b", "c"] : List String)).length : ℚ)⌋.toNat)) :=
  ((split_filenames_partition ["a", "b", "c"] (1/4) (by norm_num) (by norm_num)
      (by decide)).2 (by decide)).1

/-! ### Claim C7 -/

/-- C7 counterexample: at fraction 3/4 and 10 total samples,
`parse_temperature_vector` produces `int(7.5) = 7`, not
`round(7.5) = 8` as the claim states. -/
theorem parse_temperature_vector_truncates_not_rounds :
    parse_temperature_vector [3/4] 10 = [7] ∧
    pyRound ((3/4 : ℚ) * ((10 : ℕ) : ℚ)) = 8 ∧ (7 : ℤ) ≠ 8 := by
  have hq : ((3 : ℚ)/4 * ((10 : ℕ) : ℚ)) = 15/2 := by push_cast; norm_num
  have hfl : Rat.floor ((15 : ℚ)/2) = 7 := by rw [Rat.floor_def']; norm_num
  refine ⟨?_, ?_, by decide⟩
  · show ([pyTrunc ((3/4 : ℚ) * ((10 : ℕ) : ℚ))].mergeSort (· ≤ ·)) = [7]
    have ht : pyTrunc ((3/4 : ℚ) * ((10 : ℕ) : ℚ)) = 7 := by
      rw [pyTrunc, if_pos (by rw [hq]; norm_num), hq, hfl]
    rw [ht, List.mergeSort_singleton]
  · rw [hq]
    simp only [pyRound, hfl]
    norm_num

/-- C7 (amended): `parse_temperature_vector` converts each fractional
x-point with `int(fraction * totalSamples)` (truncation toward zero, not
rounding) and returns them sorted ascending. -/
theorem parse_temperature_vector_sorted_trunc (t : List ℚ) (n : ℕ) :
    (parse_temperature_vector t n).Sorted (· ≤ ·) ∧
    (parse_temperature_vector t n).Perm (t.map fun x => pyTrunc (x * (n : ℚ))) :=
  ⟨List.sorted_mergeSort' _, List.mergeSort_perm _ _⟩

/-! ### Claim C9 -/

/-- C9: when a seed chunk is present, every sequence of the initial batch
receives the identical quantized seed frame. -/
theorem init_batch_seed_shared (num_seqs big_frame_size : ℕ) (q_zero : ℤ)
    (qz : ℚ → ℤ) (chunk : List ℚ) {i j : ℕ} (hi : i < num_seqs) (hj : j < num_seqs) :
    (init_batch num_seqs big_frame_size q_zero qz (some chunk)).getD i [] =
      chunk.map qz ∧
    (init_batch num_seqs big_frame_size q_zero qz (some chunk)).getD i [] =
      (init_batch num_seqs big_frame_size q_zero qz (some chunk)).getD j [] := by
  simp only [init_batch]
  exact ⟨list_getD_replicate _ _ hi,
    by rw [list_getD_replicate _ _ hi, list_getD_replicate _ _ hj]⟩

/-- Witness for C9 at a concrete seeded batch of two sequences. -/
theorem init_batch_seed_shared_witness :
    (init_batch 2 3 128 (fun _ => (7 : ℤ)) (some [1/2, 1/2, 1/2])).getD 0 [] =
      ([1/2, 1/2, 1/2] : List ℚ).map (fun _ => (7 : ℤ)) ∧
    (init_batch 2 3 128 (fun _ => (7 : ℤ)) (some [1/2, 1/2, 1/2])).getD 0 [] =
      (init_batch 2 3 128 (fun _ => (7 : ℤ)) (some [1/2, 1/2, 1/2])).getD 1 [] :=
  init_batch_seed_shared 2 3 128 (fun _ => (7 : ℤ)) [1/2, 1/2, 1/2]
    (by decide) (by decide)

/-! ### Claim C10 -/

/-- C10: when every parsed spec is a scalar, `get_temperature` yields
exactly `nsamps` temperature vectors: the `StopIteration` branch is
unreachable. -/
theorem get_temperature_all_scalar_length (parsed : List PTemp) (n : ℕ)
    (h : ∀ t ∈ parsed, ∃ v, t = PTemp.const v) :
    (get_temperature parsed n).length = n := by
  rw [get_temperature]
  apply gt_from_length_of_some
  intro j
  apply temps_at_all_inl _ j
  intro g hg
  rw [curve_streams] at hg
  obtain ⟨t, ht, rfl⟩ := List.mem_map.mp hg
  obtain ⟨v, rfl⟩ := h t ht
  exact ⟨v, rfl⟩

/-- Witness for C10: two scalar specs over five frames yield five vectors. -/
theorem get_temperature_all_scalar_length_witness :
    (get_temperature [PTemp.const 1, PTemp.const (1/2)] 5).length = 5 :=
  get_temperature_all_scalar_length _ 5 (by
    intro t ht
    simp only [List.mem_cons, List.mem_singleton, List.not_mem_nil, or_false] at ht
    rcases ht with rfl | rfl
    · exact ⟨1, rfl⟩
    · exact ⟨1/2, rfl⟩)

/-! ### Claim C8 -/

/-- C8: seeding fails with the seed-too-short error exactly when
`offset + big_frame_size` exceeds the seed audio's length, before any model
stepping (the outcome is independent of the model's step function); when it
fits, generation succeeds and no such error is raised. -/
theorem generate_seed_gate (qz : ℚ → ℤ) (dq : ℤ → ℚ) (bfs qlv : ℕ)
    (path ckpt : String) (num_seqs dur sr : ℕ) (temps : List RawTemp)
    (audio : List ℚ) (off : ℕ) :
    (audio.length < off + bfs →
      ∀ step, generate step qz dq bfs qlv path ckpt num_seqs dur sr temps
        (some audio) off = .error .seedTooShort) ∧
    (off + bfs ≤ audio.length →
      ∀ step, ∃ r,
        generate step qz dq bfs qlv path ckpt num_seqs dur sr temps
          (some audio) off = .ok r) :=
  ⟨fun h step =>
    generate_some_err step qz dq bfs qlv path ckpt num_seqs dur sr temps audio off h,
   fun h step =>
    ⟨_, generate_some_ok step qz dq bfs qlv path ckpt num_seqs dur sr temps audio off h⟩⟩

/-- Witness for C8: a one-sample seed at offset 1 is too short for a
2-sample frame and fails; a three-sample seed at offset 0 succeeds. -/
theorem generate_seed_gate_witness :
    (([0] : List ℚ).length < 1 + 2 ∧
      generate (fun _ _ => []) (fun _ => 0) (fun _ => 0) 2 256 "o.wav"
        "m/model.ckpt-1" 1 1 4 [RawTemp.num 1] (some [0]) 1 =
        .error .seedTooShort) ∧
    (0 + 2 ≤ ([0, 0, 0] : List ℚ).length ∧
      ∃ r, generate (fun _ _ => []) (fun _ => 0) (fun _ => 0) 2 256 "o.wav"
        "m/model.ckpt-1" 1 1 4 [RawTemp.num 1] (some [0, 0, 0]) 0 = .ok r) :=
  ⟨⟨by decide,
    (generate_seed_gate (fun _ => 0) (fun _ => 0) 2 256 "o.wav" "m/model.ckpt-1"
        1 1 4 [RawTemp.num 1] [0] 1).1 (by decide) (fun _ _ => [])⟩,
   ⟨by decide,
    (generate_seed_gate (fun _ => 0) (fun _ => 0) 2 256 "o.wav" "m/model.ckpt-1"
        1 1 4 [RawTemp.num 1] [0, 0, 0] 0).2 (by decide) (fun _ _ => [])⟩⟩

/-! ### Claim C3 -/

/-- C3 counterexample: for a curve spec with y-points `[3/2, 1/2]`, the
temperature component interpolated into the output file name is the whole
y-points list, not the final control-point y-value `1/2` the claim
requires. -/
theorem generate_name_full_ypoints_list :
    Except.map (fun r => (r.names.getD 0 ⟨"", none, TempTok.num 0⟩).temp)
      (generate (fun _ _ => [List.replicate 8 (128 : ℤ)]) (fun _ => 0)
        (fun z => (z : ℚ)) 8 256 "out.wav" "ckpt/model.ckpt-10" 1 1 8
        [RawTemp.pair [0, 1] [3/2, 1/2]] none 0)
      = Except.ok (TempTok.list [3/2, 1/2]) ∧
    TempTok.list [3/2, 1/2] ≠ TempTok.num (1/2) :=
  ⟨rfl, fun h => TempTok.noConfusion h⟩

/-- C3 (amended): each output file name is built from the output path with
the checkpoint epoch appended, the sequence index exactly when
`numSeqs > 1`, and a temperature component where a scalar spec contributes
its own value and a curve spec contributes its whole y-points list (not
just the final y-value). -/
theorem generate_file_naming (step : List (List ℤ) → List ℚ → List (List ℤ))
    (qz : ℚ → ℤ) (dq : ℤ → ℚ) (bfs qlv : ℕ) (path ckpt : String)
    (num_seqs dur sr : ℕ) (temps : List RawTemp) {i : ℕ} (hi : i < num_seqs) :
    Except.map (fun r => r.names.getD i ⟨"", none, TempTok.num 0⟩)
      (generate step qz dq bfs qlv path ckpt num_seqs dur sr temps none 0)
      = Except.ok
          { base := base_path path ++ "_e=" ++ ckpt_epoch ckpt
            seqIdx := if 1 < num_seqs then some i else none
            temp := temp_for_name
              ((parse_temperature temps num_seqs (dur * sr)).getD i (.const 0)) } ∧
    (∀ xs ys, temp_for_name (.curve xs ys) = .list ys) := by
  refine ⟨?_, fun xs ys => rfl⟩
  rw [generate_none_eq]
  simp only [Except.map]
  rw [list_getD_map_range _ _ hi]

/-- Witness for C3 (amended) at two sequences, index 1, one scalar spec. -/
theorem generate_file_naming_witness :
    Except.map (fun r => r.names.getD 1 ⟨"", none, TempTok.num 0⟩)
      (generate (fun _ _ => []) (fun _ => 0) (fun z => (z : ℚ)) 4 256
        "x.wav" "d/model.ckpt-3" 2 1 8 [RawTemp.num 1] none 0)
      = Except.ok
          { base := base_path "x.wav" ++ "_e=" ++ ckpt_epoch "d/model.ckpt-3"
            seqIdx := if 1 < 2 then some 1 else none
            temp := temp_for_name
              ((parse_temperature [RawTemp.num 1] 2 (1 * 8)).getD 1 (.const 0)) } ∧
    (∀ xs ys, temp_for_name (.curve xs ys) = .list ys) :=
  generate_file_naming (fun _ _ => []) (fun _ => 0) (fun z => (z : ℚ)) 4 256
    "x.wav" "d/model.ckpt-3" 2 1 8 [RawTemp.num 1] (by decide)

/-! ### Claim C1 -/

/-- C1: at the spec's own end-to-end test input (`bigFrameSize = 8`,
`dur = 1`, `sampleRate = 8`, `numSeqs = 1`, scalar temperature, stub model
emitting one 8-sample midpoint frame per step) the written sequence has 0
samples, not `numFrames * bigFrameSize = 8`: after line 174 already dropped
the leading seed frame batch-wide, line 182 drops `big_frame_size` samples
a second time per sequence, so the code writes
`(numFrames - 1) * bigFrameSize` samples and the claim fails on the code. -/
theorem generate_output_short_at_spec_input :
    Except.map (fun r => (r.seqs.getD 0 []).length)
      (generate (fun _ _ => [List.replicate 8 (128 : ℤ)]) (fun _ => 0)
        (fun z => (z : ℚ)) 8 256 "out.wav" "ckpt/model.ckpt-10" 1 1 8
        [RawTemp.num (19/20)] none 0)
      = Except.ok 0 ∧
    (1 * 8 / 8) * 8 = 8 ∧ (0 : ℕ) ≠ 8 :=
  ⟨rfl, rfl, by decide⟩

/-! ### Claim C4 -/

/-- C4: the stepping loop advances the model exactly once per available
temperature vector and stops as soon as the stream is exhausted, without
error: the temperature stream never exceeds `numFrames` vectors, generation
always returns a result, and for a model emitting `numSeqs` rows of
`bigFrameSize` samples per step every finished sequence carries all
`k` generated frames (plus the seed frame) into FINALIZE, where `k` is the
temperature stream's length. -/
theorem generate_early_stop (step : List (List ℤ) → List ℚ → List (List ℤ))
    (qz : ℚ → ℤ) (dq : ℤ → ℚ) (bfs qlv : ℕ) (path ckpt : String)
    (num_seqs dur sr : ℕ) (temps : List RawTemp)
    (hstep : ∀ prev t, (step prev t).length = num_seqs ∧
      ∀ row ∈ step prev t, row.length = bfs) :
    (get_temperature (parse_temperature temps num_seqs (dur * sr))
        (dur * sr / bfs)).length ≤ dur * sr / bfs ∧
    ∃ r, generate step qz dq bfs qlv path ckpt num_seqs dur sr temps none 0 =
        .ok r ∧
      r.seqs.length = num_seqs ∧
      ∀ s ∈ r.seqs, s.length =
        ((get_temperature (parse_temperature temps num_seqs (dur * sr))
            (dur * sr / bfs)).length + 1) * bfs - 2 * bfs := by
  constructor
  · rw [get_temperature]
    exact gt_from_length_le _ _ _
  · refine ⟨_, generate_none_eq step qz dq bfs qlv path ckpt num_seqs dur sr temps 0,
      ?_, ?_⟩
    · simp
    · intro s hs
      simp only at hs
      obtain ⟨i, hmem, rfl⟩ := List.mem_map.mp hs
      have hi : i < num_seqs := List.mem_range.mp hmem
      have hinit_len :
          (init_batch num_seqs bfs ((qlv / 2 : ℕ) : ℤ) qz none).length = num_seqs := by
        simp [init_batch]
      have hinit_rows : ∀ row ∈ init_batch num_seqs bfs ((qlv / 2 : ℕ) : ℤ) qz none,
          row.length = bfs := by
        intro row hrow
        simp only [init_batch] at hrow
        rw [List.eq_of_mem_replicate hrow]
        simp
      set tv := get_temperature (parse_temperature temps num_seqs (dur * sr))
        (dur * sr / bfs) with htv
      set init := init_batch num_seqs bfs ((qlv / 2 : ℕ) : ℤ) qz none with hinit
      have hshape := run_steps_shape step hstep init tv
      have hall : ∀ x ∈ (init :: run_steps step init tv).map fun f => f.getD i [],
          x.length = bfs := by
        intro x hx
        obtain ⟨f, hf, rfl⟩ := List.mem_map.mp hx
        rcases List.mem_cons.mp hf with rfl | hf2
        · exact row_length hinit_len hinit_rows hi
        · obtain ⟨h1, h2⟩ := hshape f hf2
          exact row_length h1 h2 hi
      have hflat :
          ((init :: run_steps step init tv).map fun f => f.getD i []).flatten.length
            = (tv.length + 1) * bfs := by
        rw [flatten_length_const hall]
        simp [run_steps_length]
      simp only [List.length_map, List.length_drop, hflat]
      omega

/-- Witness for C4 at a concrete stub model with two sequences and
two-sample frames, discharging the shape hypothesis there. -/
theorem generate_early_stop_witness :
    (get_temperature (parse_temperature [RawTemp.num 1] 2 (1 * 4))
        (1 * 4 / 2)).length ≤ 1 * 4 / 2 ∧
    ∃ r, generate (fun _ _ => [[0, 0], [0, 0]]) (fun _ => 0) (fun z => (z : ℚ))
        2 256 "o.wav" "m/model.ckpt-1" 2 1 4 [RawTemp.num 1] none 0 = .ok r ∧
      r.seqs.length = 2 ∧
      ∀ s ∈ r.seqs, s.length =
        ((get_temperature (parse_temperature [RawTemp.num 1] 2 (1 * 4))
            (1 * 4 / 2)).length + 1) * 2 - 2 * 2 :=
  generate_early_stop (fun _ _ => [[0, 0], [0, 0]]) (fun _ => 0) (fun z => (z : ℚ))
    2 256 "o.wav" "m/model.ckpt-1" 2 1 4 [RawTemp.num 1] (by
      intro prev t
      refine ⟨rfl, ?_⟩
      intro row hrow
      simp only [List.mem_cons, List.not_mem_nil, or_false] at hrow
      rcases hrow with rfl | rfl <;> rfl)

/-! ### Claim C5 -/

/-- C5: on a padded batch sequence, every window's input has length
`seq_len + overlap`, the last `overlap` elements of one window's input
equal the first `overlap` elements of the next window's input, and every
window's target is exactly the input with its leading `overlap` elements
dropped. -/
theorem window_overlap_contiguity (qz : ℚ → ℤ) (raw : List ℚ) (s o k : ℕ)
    (hs : 0 < s)
    (hk : k + 1 < (get_subseq_seq qz (pad_batch_seq raw s o) s o).length) :
    ((get_subseq_seq qz (pad_batch_seq raw s o) s o).getD k ([], [])).1.length
        = s + o ∧
    ((get_subseq_seq qz (pad_batch_seq raw s o) s o).getD k ([], [])).1.drop s =
      ((get_subseq_seq qz (pad_batch_seq raw s o) s o).getD (k + 1) ([], [])).1.take o ∧
    (∀ j, j < (get_subseq_seq qz (pad_batch_seq raw s o) s o).length →
      ((get_subseq_seq qz (pad_batch_seq raw s o) s o).getD j ([], [])).2 =
        ((get_subseq_seq qz (pad_batch_seq raw s o) s o).getD j ([], [])).1.drop o) := by
  set p := pad_batch_seq raw s o with hp
  set m := raw.length / s with hm
  have hplen : p.length = o + m * s := by
    rw [hp, pad_batch_seq]
    simp [List.length_append, List.length_replicate, List.length_take,
      min_eq_left (Nat.div_mul_le_self _ _), hm]
  have hcount : (p.length - o + s - 1) / s = m := by
    rw [hplen]
    have h1 : o + m * s - o + s - 1 = m * s + (s - 1) := by omega
    rw [h1, Nat.mul_comm m s, Nat.mul_add_div hs, Nat.div_eq_of_lt (by omega),
      Nat.add_zero]
  have hwin : (get_subseq_seq qz p s o).length = m := by
    rw [get_subseq_seq]
    simp [hcount]
  have hget : ∀ j, j < m →
      (get_subseq_seq qz p s o).getD j ([], []) =
        (((p.drop (j * s)).take (s + o)).map qz,
         ((((p.drop (j * s)).take (s + o)).map qz).drop o).take s) := by
    intro j hj
    rw [get_subseq_seq]
    exact list_getD_map_range _ _ (by rw [hcount]; exact hj)
  have hkm : k + 1 < m := by rw [← hwin]; exact hk
  have hxlen : ∀ j, j < m → (((p.drop (j * s)).take (s + o)).map qz).length = s + o := by
    intro j hj
    have h1 : (j + 1) * s ≤ m * s := Nat.mul_le_mul_right s (by omega)
    rw [Nat.succ_mul] at h1
    simp only [List.length_map, List.length_take, List.length_drop, hplen]
    omega
  refine ⟨?_, ?_, ?_⟩
  · rw [hget k (by omega)]
    exact hxlen k (by omega)
  · rw [hget k (by omega), hget (k + 1) (by omega)]
    have key : ((p.drop (k * s)).take (s + o)).drop s =
        ((p.drop ((k + 1) * s)).take (s + o)).take o := by
      rw [List.drop_take, List.take_take, List.drop_drop,
        min_eq_left (Nat.le_add_left o s), Nat.add_sub_cancel_left, Nat.succ_mul]
    simp only [← List.map_drop, ← List.map_take, key]
  · intro j hj
    rw [hget j (by rw [← hwin]; exact hj)]
    apply List.take_of_length_le
    simp only [List.length_drop, List.length_map, List.length_take]
    omega

/-- Witness for C5 on the padded batch of `[1, 2, 3, 4, 5]` with
`seq_len = 2`, `overlap = 1`, at the first pair of consecutive windows. -/
theorem window_overlap_contiguity_witness :
    ((get_subseq_seq (fun _ => (0 : ℤ)) (pad_batch_seq [1, 2, 3, 4, 5] 2 1) 2 1).getD 0
        ([], [])).1.length = 2 + 1 ∧
    ((get_subseq_seq (fun _ => (0 : ℤ)) (pad_batch_seq [1, 2, 3, 4, 5] 2 1) 2 1).getD 0
        ([], [])).1.drop 2 =
      ((get_subseq_seq (fun _ => (0 : ℤ)) (pad_batch_seq [1, 2, 3, 4, 5] 2 1) 2 1).getD
          (0 + 1) ([], [])).1.take 1 ∧
    (∀ j, j < (get_subseq_seq (fun _ => (0 : ℤ)) (pad_batch_seq [1, 2, 3, 4, 5] 2 1)
        2 1).length →
      ((get_subseq_seq (fun _ => (0 : ℤ)) (pad_batch_seq [1, 2, 3, 4, 5] 2 1) 2 1).getD
          j ([], [])).2 =
        ((get_subseq_seq (fun _ => (0 : ℤ)) (pad_batch_seq [1, 2, 3, 4, 5] 2 1) 2 1).getD
            j ([], [])).1.drop 1) :=
  window_overlap_contiguity (fun _ => (0 : ℤ)) [1, 2, 3, 4, 5] 2 1 0
    (by decide) (by decide)

end PrismSampleRNN
